import Mathlib

/-!
Verification of the AI Movie Generator front-end core, shallowly embedded
from the TypeScript source: the scene store operations of App.tsx, the
SceneCard save behavior and placeholder derivation, and the two Gemini
service clients.
-/

namespace MovieGen

/-- Scene record from types.ts: optional identifier plus four text fields. -/
structure Scene where
  id : Option String
  title : String
  description : String
  dialogue : String
  imagePrompt : String
deriving DecidableEq, Repr

instance : Inhabited Scene := ⟨⟨none, "", "", "", ""⟩⟩

/-- MovieScript record from types.ts: title, genre and the ordered scenes. -/
structure MovieScript where
  title : String
  genre : String
  scenes : List Scene
deriving DecidableEq, Repr

/-- Direction argument of handleReorderScene in App.tsx. -/
inductive Direction where
  | up
  | down
deriving DecidableEq, Repr

/-- Model of the JS array write newScenes[index] = v: an in-bounds write
replaces the entry, a write at or past the length extends the array to
length index + 1, filling any gap with holes (JS undefined), which the
model fills with the default Scene. -/
def jsArrayWrite (scenes : List Scene) (index : Nat) (v : Scene) : List Scene :=
  if index < scenes.length then scenes.set index v
  else scenes ++ List.replicate (index - scenes.length) default ++ [v]

/-- Model of the JS array read scenes[i]: out-of-bounds reads yield
undefined, modelled by the default Scene. -/
def jsArrayRead (scenes : List Scene) (i : Nat) : Scene :=
  scenes.getD i default

/-- handleUpdateScene from App.tsx lines 42-54: copies the scenes array and
writes updatedScene at index, with no bounds check on index. -/
def handleUpdateScene (scenes : List Scene) (index : Nat) (updatedScene : Scene) : List Scene :=
  jsArrayWrite scenes index updatedScene

/-- handleReorderScene from App.tsx lines 56-75: computes the target index
(index - 1 for up, index + 1 for down, as JS signed arithmetic), returns the
list unchanged when the target is out of bounds, and otherwise swaps the
entries at index and target by destructuring assignment (both right-hand
sides read from the original array). -/
def handleReorderScene (scenes : List Scene) (index : Nat) (direction : Direction) : List Scene :=
  let targetIndex : Int :=
    match direction with
    | .up => (index : Int) - 1
    | .down => (index : Int) + 1
  if targetIndex < 0 ∨ (scenes.length : Int) ≤ targetIndex then
    scenes
  else
    let t : Nat := targetIndex.toNat
    let a := jsArrayRead scenes index
    let b := jsArrayRead scenes t
    jsArrayWrite (jsArrayWrite scenes index b) t a

/-- Editable field names of the SceneCard edit form (the name attributes of
its inputs); the identifier is not among them. -/
inductive EditField where
  | title
  | description
  | dialogue
  | imagePrompt
deriving DecidableEq, Repr

/-- handleInputChange from SceneCard: spreads the previous draft and
replaces the named field with the new value; the id field is never named
by any input. -/
def handleInputChange (prev : Scene) : EditField → String → Scene
  | .title, v => { prev with title := v }
  | .description, v => { prev with description := v }
  | .dialogue, v => { prev with dialogue := v }
  | .imagePrompt, v => { prev with imagePrompt := v }

/-- A draft obtained from a committed scene by a sequence of edit-form
changes. -/
def applyEdits (s : Scene) (edits : List (EditField × String)) : Scene :=
  edits.foldl (fun acc e => handleInputChange acc e.1 e.2) s

/-- Decimal value of a digit-character list, used to read parsed number
tokens and to invert the decimal rendering. -/
def decimalValue (ds : List Char) : Nat :=
  ds.foldl (fun acc c => acc * 10 + (c.toNat - 48)) 0

/-- Most-significant-first decimal digits of n, with fuel driving the
recursion. -/
def natToDigitsAux : Nat → Nat → List Char
  | 0, _ => []
  | _ + 1, 0 => []
  | fuel + 1, n + 1 => natToDigitsAux fuel ((n + 1) / 10) ++ [Nat.digitChar ((n + 1) % 10)]

/-- Decimal rendering of a natural number, the model of the JS template
literal interpolation of the numeric seed. -/
def natToString (n : Nat) : String :=
  if n = 0 then "0" else (natToDigitsAux (n + 1) n).asString

/-- Character-code sum over the imagePrompt as computed by the SceneCard
placeholder seed (split, then reduce with charCodeAt; code points model
the UTF-16 units). -/
def charCodeSum (s : String) : Nat :=
  s.data.foldl (fun acc c => acc + c.toNat) 0

/-- Placeholder seed from the SceneCard mount effect: character-code sum
of the imagePrompt plus the 1-based scene number. -/
def placeholderSeed (imagePrompt : String) (sceneNumber : Nat) : Nat :=
  charCodeSum imagePrompt + sceneNumber

/-- Placeholder image URL built in the SceneCard mount effect. -/
def placeholderUrl (imagePrompt : String) (sceneNumber : Nat) : String :=
  "https://picsum.photos/seed/" ++ natToString (placeholderSeed imagePrompt sceneNumber) ++ "/800/450"

/-- Model of JS String.prototype.startsWith. -/
def jsStartsWith (s pre : String) : Bool :=
  pre.data.isPrefixOf s.data

/-- Prefix tested by handleSave to recognize a placeholder image URL. -/
def picsumPrefix : String := "https://picsum.photos"

/-- Displayed image of a card: either the deterministic placeholder or a
generated image rendered as a base64 data URL. -/
inductive DisplayedImage where
  | placeholder (prompt : String) (pos : Nat)
  | generated (data : String)
deriving DecidableEq, Repr

/-- Whether the displayed image is still the deterministic placeholder. -/
def DisplayedImage.isPlaceholder : DisplayedImage → Bool
  | .placeholder _ _ => true
  | .generated _ => false

/-- URL shown for a displayed image, as SceneCard sets imageUrl. -/
def displayedUrl : DisplayedImage → String
  | .placeholder p pos => placeholderUrl p pos
  | .generated d => "data:image/png;base64," ++ d

/-- Steps performed by handleSave in SceneCard, in execution order: the
awaited triggerImageGeneration call (begin and completion), then the
commit through onUpdateScene. -/
inductive SaveEvent where
  | imageRequestBegin (prompt : String)
  | imageRequestDone
  | commit (scene : Scene)
deriving DecidableEq, Repr

/-- handleSave from SceneCard lines 84-90 as its sequence of steps: when
the draft imagePrompt differs from the committed one, or the displayed URL
still starts with the picsum prefix, it awaits one image generation with
the draft prompt; afterwards it always commits the draft. -/
def handleSaveTrace (scene editedScene : Scene) (imageUrl : String) : List SaveEvent :=
  (if editedScene.imagePrompt ≠ scene.imagePrompt ∨ jsStartsWith imageUrl picsumPrefix then
    [SaveEvent.imageRequestBegin editedScene.imagePrompt, SaveEvent.imageRequestDone]
  else []) ++ [SaveEvent.commit editedScene]

/-- Image requests issued by a save, read off its step sequence. -/
def saveImageRequests (scene editedScene : Scene) (imageUrl : String) : List String :=
  (handleSaveTrace scene editedScene imageUrl).filterMap fun e =>
    match e with
    | SaveEvent.imageRequestBegin p => some p
    | _ => none

/-- JSON value, the result type of the JSON.parse model (numbers are
modelled as integers; the repository only feeds schema-constrained JSON
through the parser). -/
inductive Json where
  | null
  | bool (b : Bool)
  | num (n : Int)
  | str (s : String)
  | arr (elements : List Json)
  | obj (members : List (String × Json))
deriving Repr

/-- JSON insignificant whitespace. -/
def isJsonWs (c : Char) : Bool :=
  c == ' ' || c == '\t' || c == '\n' || c == '\r'

/-- Drop leading JSON whitespace. -/
def skipWs : List Char → List Char
  | [] => []
  | c :: rest => if isJsonWs c then skipWs rest else c :: rest

/-- Consume the expected literal characters. -/
def stripLiteral : List Char → List Char → Option (List Char)
  | [], cs => some cs
  | _ :: _, [] => none
  | p :: ps, c :: cs => if c = p then stripLiteral ps cs else none

/-- Body of a JSON string after the opening quote, handling the one-char
escapes (unicode escapes are outside the model). -/
def parseStringChars : Nat → List Char → Option (List Char × List Char)
  | 0, _ => none
  | _ + 1, [] => none
  | fuel + 1, c :: rest =>
    if c = '"' then some ([], rest)
    else if c = '\\' then
      match rest with
      | [] => none
      | e :: rest2 =>
        let esc : Option Char :=
          if e = '"' then some '"'
          else if e = '\\' then some '\\'
          else if e = '/' then some '/'
          else if e = 'n' then some '\n'
          else if e = 't' then some '\t'
          else if e = 'r' then some '\r'
          else none
        match esc with
        | none => none
        | some ch =>
          match parseStringChars fuel rest2 with
          | none => none
          | some (cs, rem) => some (ch :: cs, rem)
    else
      match parseStringChars fuel rest with
      | none => none
      | some (cs, rem) => some (c :: cs, rem)

/-- Split off a maximal run of decimal digits. -/
def spanDigits : List Char → List Char × List Char
  | [] => ([], [])
  | c :: rest =>
    if c.isDigit then
      let p := spanDigits rest
      (c :: p.1, p.2)
    else ([], c :: rest)

/-- JSON number token (integers, with optional leading minus). -/
def parseNumber (cs : List Char) : Option (Json × List Char) :=
  match cs with
  | '-' :: rest =>
    match spanDigits rest with
    | ([], _) => none
    | (ds, rem) => some (Json.num (-(decimalValue ds : Int)), rem)
  | _ =>
    match spanDigits cs with
    | ([], _) => none
    | (ds, rem) => some (Json.num (decimalValue ds), rem)

mutual

/-- JSON value parser with fuel. -/
def parseValue (fuel : Nat) (cs : List Char) : Option (Json × List Char) :=
  match fuel with
  | 0 => none
  | fuel + 1 =>
    match skipWs cs with
    | [] => none
    | c :: rest =>
      if c = 'n' then (stripLiteral ['u', 'l', 'l'] rest).map fun rem => (Json.null, rem)
      else if c = 't' then (stripLiteral ['r', 'u', 'e'] rest).map fun rem => (Json.bool true, rem)
      else if c = 'f' then (stripLiteral ['a', 'l', 's', 'e'] rest).map fun rem => (Json.bool false, rem)
      else if c = '"' then
        (parseStringChars (rest.length + 1) rest).map fun p => (Json.str p.1.asString, p.2)
      else if c = '[' then
        match skipWs rest with
        | ']' :: rem => some (Json.arr [], rem)
        | cs2 => (parseElements fuel cs2).map fun p => (Json.arr p.1, p.2)
      else if c = '\x7b' then
        match skipWs rest with
        | '\x7d' :: rem => some (Json.obj [], rem)
        | cs2 => (parseMembers fuel cs2).map fun p => (Json.obj p.1, p.2)
      else parseNumber (c :: rest)

/-- Comma-separated JSON array elements up to the closing bracket. -/
def parseElements (fuel : Nat) (cs : List Char) : Option (List Json × List Char) :=
  match fuel with
  | 0 => none
  | fuel + 1 =>
    match parseValue fuel cs with
    | none => none
    | some (v, rem) =>
      match skipWs rem with
      | ',' :: rem2 => (parseElements fuel rem2).map fun p => (v :: p.1, p.2)
      | ']' :: rem2 => some ([v], rem2)
      | _ => none

/-- Comma-separated JSON object members up to the closing brace. -/
def parseMembers (fuel : Nat) (cs : List Char) : Option (List (String × Json) × List Char) :=
  match fuel with
  | 0 => none
  | fuel + 1 =>
    match skipWs cs with
    | '"' :: rest =>
      match parseStringChars (rest.length + 1) rest with
      | none => none
      | some (key, rem) =>
        match skipWs rem with
        | ':' :: rem2 =>
          match parseValue fuel rem2 with
          | none => none
          | some (v, rem3) =>
            match skipWs rem3 with
            | ',' :: rem4 => (parseMembers fuel rem4).map fun p => ((key.asString, v) :: p.1, p.2)
            | '\x7d' :: rem4 => some ([(key.asString, v)], rem4)
            | _ => none
        | _ => none
    | _ => none

end

/-- Model of the JSON.parse builtin: parse one value covering the whole
text (trailing whitespace allowed), or fail. -/
def jsonParse (s : String) : Option Json :=
  match parseValue (s.length + 1) s.data with
  | none => none
  | some (j, rem) => if skipWs rem = [] then some j else none

/-- Whether an object member list carries a string value under the key. -/
def isStringMember (ms : List (String × Json)) (key : String) : Bool :=
  match ms.lookup key with
  | some (Json.str _) => true
  | _ => false

/-- Modelled from the spec: the scene entry shape required by the response
schema (object with string title, description, dialogue, imagePrompt).
The client code never checks this shape; the definition exists only to
compare the client against the specified requirement. -/
def sceneShape (j : Json) : Bool :=
  match j with
  | Json.obj ms =>
    isStringMember ms "title" && isStringMember ms "description" &&
      isStringMember ms "dialogue" && isStringMember ms "imagePrompt"
  | _ => false

/-- Modelled from the spec: the full required script shape (object with
string title, genre, and a scenes array of scene-shaped objects). -/
def specRequiredShape (j : Json) : Bool :=
  match j with
  | Json.obj ms =>
    isStringMember ms "title" && isStringMember ms "genre" &&
      (match ms.lookup "scenes" with
       | some (Json.arr es) => es.all sceneShape
       | _ => false)
  | _ => false

/-- Upstream outcome of the script generation call: the call either throws
or yields a response whose text field may be absent. -/
inductive ScriptResponse where
  | callError
  | ok (text : Option String)
deriving DecidableEq, Repr

/-- Message of the script client catch-all rethrow. -/
def scriptErrorMsg : String := "Failed to communicate with the Gemini API."

/-- generateMovieScript from geminiService lines 51-85: embeds the idea in
the prompt, sends the request, throws inside the try block on an absent or
empty response text or a JSON.parse failure, and converts every failure to
the single GenerationError message. The idea itself is never validated and
the parse result is returned without shape validation. -/
def generateMovieScript (idea : String) (response : ScriptResponse) : Except String Json :=
  match response with
  | .callError => .error scriptErrorMsg
  | .ok none => .error scriptErrorMsg
  | .ok (some jsonText) =>
    if jsonText = "" then .error scriptErrorMsg
    else
      match jsonParse jsonText with
      | none => .error scriptErrorMsg
      | some parsedScript => .ok parsedScript

/-- One part of an image response candidate. -/
structure ImagePart where
  text : Option String
  inlineData : Option String
deriving DecidableEq, Repr

/-- Content of a response candidate. -/
structure Content where
  parts : List ImagePart
deriving DecidableEq, Repr

/-- One response candidate. -/
structure Candidate where
  content : Content
deriving DecidableEq, Repr

/-- Image generation response body. -/
structure ImageResponse where
  candidates : List Candidate
deriving DecidableEq, Repr

/-- Upstream outcome of the image generation call. -/
inductive ImageCall where
  | callError
  | ok (response : ImageResponse)
deriving DecidableEq, Repr

/-- Message of the image client catch-all rethrow. -/
def imageErrorMsg : String := "Failed to generate image with the Gemini API."

/-- First part carrying inlineData, as found by the for-loop over parts in
generateImage. -/
def firstInlineData : List ImagePart → Option String
  | [] => none
  | p :: rest =>
    match p.inlineData with
    | some d => some d
    | none => firstInlineData rest

/-- Parts examined by generateImage: those of the first candidate; reading
candidates[0] of an empty candidates list throws in JS and the try/catch
turns that into the same error an empty parts list produces. -/
def returnedParts (r : ImageResponse) : List ImagePart :=
  match r.candidates with
  | [] => []
  | c :: _ => c.content.parts

/-- generateImage from geminiService lines 87-104: on upstream success it
scans the first candidate's parts for inlineData and returns the first
such payload; every other path becomes the single ImageGenerationError
message. -/
def generateImage (call : ImageCall) : Except String String :=
  match call with
  | .callError => .error imageErrorMsg
  | .ok r =>
    match r.candidates with
    | [] => .error imageErrorMsg
    | c :: _ =>
      match firstInlineData c.content.parts with
      | some d => .ok d
      | none => .error imageErrorMsg

/-- Application Shell state held by App.tsx. -/
structure AppState where
  idea : String
  movieScript : Option MovieScript
  isLoading : Bool
  error : Option String
deriving DecidableEq, Repr

/-- Outcome of the awaited generateMovieScript call as the shell sees it. -/
inductive ScriptOutcome where
  | success (script : MovieScript)
  | failure
deriving DecidableEq, Repr

/-- Inline validation message for an empty idea. -/
def ideaErrorMsg : String := "Please enter a movie idea."

/-- Page-level message set when script generation fails. -/
def generateFailMsg : String := "Failed to generate script. Please check your API key and try again."

/-- Model of JS String.prototype.trim: drop leading and trailing
whitespace. -/
def jsTrim (s : String) : String :=
  ((s.data.dropWhile Char.isWhitespace).reverse.dropWhile Char.isWhitespace).reverse.asString

/-- Identifier assignment in handleGenerateScript: every scene receives
the next fresh value of the id source (self.crypto.randomUUID modelled as
a stream read in order). -/
def assignIds (ids : Nat → String) : Nat → List Scene → List Scene
  | _, [] => []
  | i, s :: rest => { s with id := some (ids i) } :: assignIds ids (i + 1) rest

/-- handleGenerateScript from App.tsx lines 16-40: aborts with an inline
error when the trimmed idea is empty; otherwise sets loading, clears the
error and the script, runs the client call, stores the id-tagged script on
success or the failure message on failure, and finally clears loading.
Returns the new state and whether the Script Client was called. -/
def handleGenerateScript (st : AppState) (ids : Nat → String) (outcome : ScriptOutcome) : AppState × Bool :=
  if jsTrim st.idea = "" then
    ({ st with error := some ideaErrorMsg }, false)
  else
    let cleared : AppState := { st with isLoading := true, error := none, movieScript := none }
    match outcome with
    | .success script =>
      let scenesWithIds := assignIds ids 0 script.scenes
      ({ cleared with movieScript := some { script with scenes := scenesWithIds }, isLoading := false }, true)
    | .failure =>
      ({ cleared with error := some generateFailMsg, isLoading := false }, true)

/-- Per-card UI state relevant to the save-signal effect: the saveTrigger
prop and the isEditing flag. -/
structure CardUI where
  saveTrigger : Nat
  isEditing : Bool
deriving DecidableEq, Repr

/-- Condition of the SceneCard saveTrigger effect (lines 101-105): after a
render in which one of its dependencies changed, it invokes handleSave
exactly when saveTrigger is positive and the card is editing. -/
def saveEffectFires (saveTrigger : Nat) (isEditing : Bool) : Bool :=
  decide (0 < saveTrigger) && isEditing

/-- Entering edit mode: the isEditing dependency changes, so the effect
runs after the render; returns the new state and whether handleSave is
invoked by the effect. -/
def enterEditing (s : CardUI) : CardUI × Bool :=
  let s2 : CardUI := { s with isEditing := true }
  (s2, saveEffectFires s2.saveTrigger s2.isEditing)

/-- handleSaveAll from App.tsx lines 77-79: increments the save counter. -/
def handleSaveAll (saveTrigger : Nat) : Nat := saveTrigger + 1

/-- Concrete scene used by witnesses. -/
def sceneA : Scene := ⟨some "id-a", "A", "da", "la", "pa"⟩

/-- Concrete scene used by witnesses. -/
def sceneB : Scene := ⟨some "id-b", "B", "db", "lb", "pb"⟩

/-- Concrete scene used by witnesses. -/
def sceneC : Scene := ⟨some "id-c", "C", "dc", "lc", "pc"⟩

theorem jsArrayWrite_eq_set (scenes : List Scene) (i : Nat) (v : Scene) (h : i < scenes.length) :
    jsArrayWrite scenes i v = scenes.set i v := by
  simp [jsArrayWrite, h]

theorem jsArrayWrite_append (scenes : List Scene) (v : Scene) :
    jsArrayWrite scenes scenes.length v = scenes ++ [v] := by
  simp [jsArrayWrite]

theorem jsArrayRead_eq_getD (scenes : List Scene) (i : Nat) :
    jsArrayRead scenes i = scenes.getD i default := rfl

theorem reorder_up_zero (scenes : List Scene) :
    handleReorderScene scenes 0 .up = scenes := by
  have h : ((0 : Nat) : Int) - 1 < 0 ∨ (scenes.length : Int) ≤ ((0 : Nat) : Int) - 1 := by
    left; decide
  simp only [handleReorderScene, if_pos h]

theorem reorder_down_oob (scenes : List Scene) (i : Nat) (h : scenes.length ≤ i + 1) :
    handleReorderScene scenes i .down = scenes := by
  have hc : ((i : Nat) : Int) + 1 < 0 ∨ (scenes.length : Int) ≤ ((i : Nat) : Int) + 1 := by
    right; omega
  simp only [handleReorderScene, if_pos hc]

theorem reorder_down_last (scenes : List Scene) :
    handleReorderScene scenes (scenes.length - 1) .down = scenes :=
  reorder_down_oob scenes (scenes.length - 1) (by omega)

theorem reorder_up_eq (scenes : List Scene) (i : Nat) (h0 : 0 < i) (hi : i < scenes.length) :
    handleReorderScene scenes i .up
      = (scenes.set i (scenes.getD (i - 1) default)).set (i - 1) (scenes.getD i default) := by
  have hc : ¬(((i : Nat) : Int) - 1 < 0 ∨ (scenes.length : Int) ≤ ((i : Nat) : Int) - 1) := by
    omega
  have ht : (((i : Nat) : Int) - 1).toNat = i - 1 := by omega
  simp only [handleReorderScene, if_neg hc, ht, jsArrayRead]
  rw [jsArrayWrite_eq_set scenes i _ hi,
    jsArrayWrite_eq_set _ _ _ (by rw [List.length_set]; omega)]

theorem reorder_down_eq (scenes : List Scene) (i : Nat) (hi : i + 1 < scenes.length) :
    handleReorderScene scenes i .down
      = (scenes.set i (scenes.getD (i + 1) default)).set (i + 1) (scenes.getD i default) := by
  have hc : ¬(((i : Nat) : Int) + 1 < 0 ∨ (scenes.length : Int) ≤ ((i : Nat) : Int) + 1) := by
    omega
  have ht : (((i : Nat) : Int) + 1).toNat = i + 1 := by omega
  simp only [handleReorderScene, if_neg hc, ht, jsArrayRead]
  rw [jsArrayWrite_eq_set scenes i _ (by omega),
    jsArrayWrite_eq_set _ _ _ (by rw [List.length_set]; omega)]

theorem set_self_of_getElem {α : Type} (l : List α) (d : α) (i : Nat) (h : i < l.length) :
    l.set i (l.getD i d) = l := by
  rw [List.getD_eq_getElem l d h]
  apply List.ext_getElem?
  intro j
  rw [List.getElem?_set]
  split
  · rename_i hj
    subst hj
    exact (List.getElem?_eq_getElem h).symm
  · rfl

theorem set_swap_adjacent_perm (l : List Scene) (i : Nat) (h : i + 1 < l.length) :
    ((l.set i (l.getD (i + 1) default)).set (i + 1) (l.getD i default)).Perm l := by
  induction l generalizing i with
  | nil => simp at h
  | cons a as ih =>
    cases i with
    | zero =>
      cases as with
      | nil => simp at h
      | cons b bs =>
        simp only [List.getD_cons_succ, List.getD_cons_zero, List.set_cons_zero,
          List.set_cons_succ]
        exact List.Perm.swap a b bs
    | succ k =>
      simp only [List.getD_cons_succ, List.set_cons_succ]
      exact List.Perm.cons a (ih k (by simpa using h))

theorem set_swap_spec (l : List Scene) (i t : Nat) (hi : i < l.length) (ht : t < l.length)
    (hne : i ≠ t) :
    ((l.set i (l.getD t default)).set t (l.getD i default)).length = l.length ∧
    ((l.set i (l.getD t default)).set t (l.getD i default))[t]? = l[i]? ∧
    ((l.set i (l.getD t default)).set t (l.getD i default))[i]? = l[t]? ∧
    ∀ j, j ≠ i → j ≠ t → ((l.set i (l.getD t default)).set t (l.getD i default))[j]? = l[j]? := by
  rw [List.getD_eq_getElem l default hi, List.getD_eq_getElem l default ht]
  refine ⟨by simp, ?_, ?_, ?_⟩
  · rw [List.getElem?_set_eq (by simpa using ht), List.getElem?_eq_getElem hi]
  · rw [List.getElem?_set_ne (Ne.symm hne), List.getElem?_set_eq hi,
      List.getElem?_eq_getElem ht]
  · intro j hji hjt
    rw [List.getElem?_set_ne (Ne.symm hjt), List.getElem?_set_ne (Ne.symm hji)]

/-- C1: at a valid index, reorder is a no-op when the target falls off
either end (up at index 0, down at the last index); otherwise it swaps
exactly the entries at the index and its target, preserving the length,
every other entry, and the multiset of scene identifiers. -/
theorem reorder_swap_spec (scenes : List Scene) (i : Nat) (hi : i < scenes.length) :
    handleReorderScene scenes 0 .up = scenes ∧
    handleReorderScene scenes (scenes.length - 1) .down = scenes ∧
    (∀ d : Direction, (handleReorderScene scenes i d).length = scenes.length) ∧
    (0 < i →
      (handleReorderScene scenes i .up)[i]? = scenes[i - 1]? ∧
      (handleReorderScene scenes i .up)[i - 1]? = scenes[i]? ∧
      (∀ j, j ≠ i → j ≠ i - 1 → (handleReorderScene scenes i .up)[j]? = scenes[j]?) ∧
      ((handleReorderScene scenes i .up).map Scene.id).Perm (scenes.map Scene.id)) ∧
    (i + 1 < scenes.length →
      (handleReorderScene scenes i .down)[i]? = scenes[i + 1]? ∧
      (handleReorderScene scenes i .down)[i + 1]? = scenes[i]? ∧
      (∀ j, j ≠ i → j ≠ i + 1 → (handleReorderScene scenes i .down)[j]? = scenes[j]?) ∧
      ((handleReorderScene scenes i .down).map Scene.id).Perm (scenes.map Scene.id)) := by
  refine ⟨reorder_up_zero scenes, reorder_down_last scenes, ?_, ?_, ?_⟩
  · intro d
    cases d with
    | up =>
      rcases Nat.eq_zero_or_pos i with h0 | h0
      · subst h0; rw [reorder_up_zero]
      · rw [reorder_up_eq scenes i h0 hi]; simp
    | down =>
      rcases Nat.lt_or_ge (i + 1) scenes.length with h1 | h1
      · rw [reorder_down_eq scenes i h1]; simp
      · rw [reorder_down_oob scenes i h1]
  · intro h0
    rw [reorder_up_eq scenes i h0 hi]
    have hs := set_swap_spec scenes i (i - 1) hi (by omega) (by omega)
    refine ⟨hs.2.2.1, hs.2.1, hs.2.2.2, ?_⟩
    apply List.Perm.map
    have hk : i = (i - 1) + 1 := by omega
    rw [List.set_comm _ _ _ (by omega : i ≠ i - 1)]
    rw [hk]
    exact set_swap_adjacent_perm scenes (i - 1) (by omega)
  · intro h1
    rw [reorder_down_eq scenes i h1]
    have hs := set_swap_spec scenes i (i + 1) hi (by omega) (by omega)
    refine ⟨hs.2.2.1, hs.2.1, hs.2.2.2, ?_⟩
    exact List.Perm.map _ (set_swap_adjacent_perm scenes i h1)

/-- Witness for C1 at a concrete three-scene list and index 1. -/
theorem reorder_swap_spec_witness :
    handleReorderScene [sceneA, sceneB, sceneC] 0 .up = [sceneA, sceneB, sceneC] ∧
    (handleReorderScene [sceneA, sceneB, sceneC] 1 .down)[1]? = [sceneA, sceneB, sceneC][2]? ∧
    (handleReorderScene [sceneA, sceneB, sceneC] 1 .down)[2]? = [sceneA, sceneB, sceneC][1]? := by
  have h := reorder_swap_spec [sceneA, sceneB, sceneC] 1 (by decide)
  have hd := h.2.2.2.2 (by decide)
  exact ⟨h.1, hd.1, hd.2.1⟩

theorem handleInputChange_id (prev : Scene) (f : EditField) (v : String) :
    (handleInputChange prev f v).id = prev.id := by
  cases f <;> rfl

theorem applyEdits_id (s : Scene) (edits : List (EditField × String)) :
    (applyEdits s edits).id = s.id := by
  induction edits generalizing s with
  | nil => rfl
  | cons e rest ih =>
    show (applyEdits (handleInputChange s e.1 e.2) rest).id = s.id
    rw [ih, handleInputChange_id]

/-- C4 counterexample: updating index 0 of a one-scene list with a
replacement that carries a different identifier changes the stored
identifier, so the identifier at the index is not preserved for every
replacement scene value. -/
theorem update_id_change_counterexample :
    (handleUpdateScene [sceneA] 0 sceneB).map Scene.id = [some "id-b"] ∧
    [sceneA].map Scene.id = [some "id-a"] ∧ sceneB.id ≠ sceneA.id := by
  refine ⟨rfl, rfl, by decide⟩

/-- C4 amended: for a valid index, update replaces exactly the entry at
the index (whose stored identifier becomes the replacement's identifier),
preserves the length and every other entry, and the identifier list is
unchanged whenever the replacement carries the committed identifier, as
every draft the card edit form derives from the committed scene does. -/
theorem update_frame_spec (scenes : List Scene) (i : Nat) (s : Scene) (hi : i < scenes.length) :
    (handleUpdateScene scenes i s).length = scenes.length ∧
    (handleUpdateScene scenes i s)[i]? = some s ∧
    (∀ j, j ≠ i → (handleUpdateScene scenes i s)[j]? = scenes[j]?) ∧
    (handleUpdateScene scenes i s).map Scene.id = (scenes.map Scene.id).set i s.id ∧
    ∀ edits : List (EditField × String),
      (handleUpdateScene scenes i (applyEdits (scenes.get ⟨i, hi⟩) edits)).map Scene.id
        = scenes.map Scene.id := by
  rw [handleUpdateScene, jsArrayWrite_eq_set scenes i s hi]
  refine ⟨by simp, List.getElem?_set_eq hi, ?_, List.map_set, ?_⟩
  · intro j hj
    exact List.getElem?_set_ne (Ne.symm hj)
  · intro edits
    rw [handleUpdateScene, jsArrayWrite_eq_set scenes i _ hi, List.map_set, applyEdits_id]
    have hg : scenes.get ⟨i, hi⟩ = scenes.getD i default := (List.getD_eq_getElem scenes default hi).symm
    rw [hg]
    have hmap : (scenes.map Scene.id).getD i (Scene.id default) = Scene.id (scenes.getD i default) := by
      rw [List.getD_eq_getElem scenes default hi,
        List.getD_eq_getElem (scenes.map Scene.id) (Scene.id default) (by simpa using hi),
        List.getElem_map]
    rw [← hmap]
    exact set_self_of_getElem (scenes.map Scene.id) (Scene.id default) i (by simpa using hi)

/-- Witness for C4 amended at a concrete list, index and draft edit. -/
theorem update_frame_spec_witness :
    (handleUpdateScene [sceneA, sceneB] 1
        (applyEdits ([sceneA, sceneB].get ⟨1, by decide⟩) [(EditField.title, "T")])).map Scene.id
      = [sceneA, sceneB].map Scene.id ∧
    (handleUpdateScene [sceneA, sceneB] 1 sceneC)[0]? = some sceneA := by
  have h := update_frame_spec [sceneA, sceneB] 1 sceneC (by decide)
  exact ⟨(update_frame_spec [sceneA, sceneB] 1 sceneC (by decide)).2.2.2.2 [(EditField.title, "T")],
    h.2.2.1 0 (by decide)⟩

/-- C9: update performs no bounds check: a write at index = length does
not reject or no-op but appends the scene there, growing the sequence,
while reorder guards its target index against both bounds and leaves the
list unchanged at either end. -/
theorem update_no_bounds_check (scenes : List Scene) (s : Scene) :
    handleUpdateScene scenes scenes.length s = scenes ++ [s] ∧
    (handleUpdateScene scenes scenes.length s).length = scenes.length + 1 ∧
    (handleUpdateScene scenes scenes.length s)[scenes.length]? = some s ∧
    handleReorderScene scenes 0 .up = scenes ∧
    handleReorderScene scenes (scenes.length - 1) .down = scenes := by
  have he : handleUpdateScene scenes scenes.length s = scenes ++ [s] :=
    jsArrayWrite_append scenes s
  refine ⟨he, by rw [he]; simp, ?_, reorder_up_zero scenes, reorder_down_last scenes⟩
  rw [he, List.getElem?_append_right (Nat.le_refl _)]
  simp

/-- C10: once the save counter is positive, a card entering the editing
state immediately fires the save effect, even though the counter did not
change in that step. -/
theorem enterEditing_fires_save (s : CardUI) (h : 0 < s.saveTrigger) :
    (enterEditing s).2 = true ∧ (enterEditing s).1.saveTrigger = s.saveTrigger ∧
    (enterEditing s).1.isEditing = true := by
  refine ⟨?_, rfl, rfl⟩
  simp [enterEditing, saveEffectFires, h]

/-- Witness for C10 at a concrete card state with one prior save-all. -/
theorem enterEditing_fires_save_witness :
    (enterEditing ⟨1, false⟩).2 = true ∧ (enterEditing ⟨1, false⟩).1.saveTrigger = 1 :=
  ⟨(enterEditing_fires_save ⟨1, false⟩ (by decide)).1,
    (enterEditing_fires_save ⟨1, false⟩ (by decide)).2.1⟩

theorem jsStartsWith_placeholderUrl (p : String) (pos : Nat) :
    jsStartsWith (placeholderUrl p pos) picsumPrefix = true := by
  have h : placeholderUrl p pos
      = picsumPrefix ++ ("/seed/" ++ (natToString (placeholderSeed p pos) ++ "/800/450")) := by
    rw [placeholderUrl,
      show ("https://picsum.photos/seed/" : String) = picsumPrefix ++ "/seed/" from rfl,
      String.append_assoc, String.append_assoc]
  rw [jsStartsWith, h, List.isPrefixOf_iff_prefix, String.data_append]
  exact List.prefix_append _ _

theorem jsStartsWith_dataUrl (d : String) :
    jsStartsWith ("data:image/png;base64," ++ d) picsumPrefix = false := by
  rw [jsStartsWith, Bool.eq_false_iff]
  intro hpre
  rw [List.isPrefixOf_iff_prefix, String.data_append, List.prefix_iff_eq_take,
    List.take_append_eq_append_take] at hpre
  have hz : picsumPrefix.data.length - ("data:image/png;base64," : String).data.length = 0 := by
    decide
  rw [hz, List.take_zero, List.append_nil] at hpre
  have hne : picsumPrefix.data
      ≠ List.take picsumPrefix.data.length ("data:image/png;base64," : String).data := by
    decide
  exact hne hpre

theorem jsStartsWith_displayedUrl (img : DisplayedImage) :
    jsStartsWith (displayedUrl img) picsumPrefix = img.isPlaceholder := by
  cases img with
  | placeholder p pos => rw [DisplayedImage.isPlaceholder, displayedUrl, jsStartsWith_placeholderUrl]
  | generated d => rw [DisplayedImage.isPlaceholder, displayedUrl, jsStartsWith_dataUrl]

/-- C2: a save issues a new image request exactly when the draft
imagePrompt differs from the committed one or the displayed image is still
the deterministic placeholder; when issued it is exactly one request using
the draft imagePrompt; and the draft is committed as the final step in
every case, whatever the image outcome. -/
theorem save_image_request_spec (scene editedScene : Scene) (img : DisplayedImage) :
    saveImageRequests scene editedScene (displayedUrl img)
      = (if editedScene.imagePrompt ≠ scene.imagePrompt ∨ img.isPlaceholder = true then
          [editedScene.imagePrompt] else []) ∧
    (handleSaveTrace scene editedScene (displayedUrl img)).getLast?
      = some (SaveEvent.commit editedScene) := by
  constructor
  · rw [saveImageRequests, handleSaveTrace, jsStartsWith_displayedUrl]
    by_cases hc : editedScene.imagePrompt ≠ scene.imagePrompt ∨ img.isPlaceholder = true
    · rw [if_pos hc, if_pos hc]
      rfl
    · rw [if_neg hc, if_neg hc]
      rfl
  · rw [handleSaveTrace]
    exact List.getLast?_concat _

/-- Witness for C2 at a concrete save with an unchanged prompt over a
generated image (no request) derived by applying the claim theorem. -/
theorem save_image_request_spec_witness :
    saveImageRequests sceneA sceneA (displayedUrl (DisplayedImage.generated "x")) = [] ∧
    saveImageRequests sceneA sceneB (displayedUrl (DisplayedImage.generated "x"))
      = [sceneB.imagePrompt] := by
  have h1 := (save_image_request_spec sceneA sceneA (DisplayedImage.generated "x")).1
  have h2 := (save_image_request_spec sceneA sceneB (DisplayedImage.generated "x")).1
  rw [if_neg (by decide)] at h1
  rw [if_pos (by decide)] at h2
  exact ⟨h1, h2⟩

/-- C3 counterexample: at a concrete save with a changed prompt, the image
request begins (and even completes) strictly before the commit is applied,
so a save does not fully apply its commit before the image request it
triggers begins. -/
theorem save_commit_order_counterexample :
    handleSaveTrace sceneA sceneB (displayedUrl (DisplayedImage.generated "x"))
      = [SaveEvent.imageRequestBegin "pb", SaveEvent.imageRequestDone, SaveEvent.commit sceneB] ∧
    (handleSaveTrace sceneA sceneB (displayedUrl (DisplayedImage.generated "x")))[0]?
      = some (SaveEvent.imageRequestBegin "pb") ∧
    (handleSaveTrace sceneA sceneB (displayedUrl (DisplayedImage.generated "x")))[2]?
      = some (SaveEvent.commit sceneB) := by
  refine ⟨by decide, by decide, by decide⟩

/-- C3 amended: within one card, any image request triggered by a save
begins and fully completes before the commit of the draft is applied; the
commit of the draft is always the final step of the save. -/
theorem save_commit_after_requests (scene editedScene : Scene) (imageUrl : String) :
    ∃ reqs : List SaveEvent,
      handleSaveTrace scene editedScene imageUrl = reqs ++ [SaveEvent.commit editedScene] ∧
      ∀ s : Scene, SaveEvent.commit s ∉ reqs := by
  refine ⟨_, rfl, ?_⟩
  intro s hs
  by_cases hc : editedScene.imagePrompt ≠ scene.imagePrompt ∨ jsStartsWith imageUrl picsumPrefix
  · rw [if_pos hc] at hs
    simp at hs
  · rw [if_neg hc] at hs
    simp at hs

/-- Witness for C3 amended at a concrete save with a changed prompt. -/
theorem save_commit_after_requests_witness :
    ∃ reqs : List SaveEvent,
      handleSaveTrace sceneA sceneB (displayedUrl (DisplayedImage.generated "x"))
        = reqs ++ [SaveEvent.commit sceneB] ∧ ∀ s : Scene, SaveEvent.commit s ∉ reqs :=
  save_commit_after_requests sceneA sceneB (displayedUrl (DisplayedImage.generated "x"))

theorem decimalValue_append_digit (xs : List Char) (c : Char) :
    decimalValue (xs ++ [c]) = decimalValue xs * 10 + (c.toNat - 48) := by
  simp only [decimalValue, List.foldl_append, List.foldl_cons, List.foldl_nil]

theorem digitChar_toNat_sub (d : Nat) (h : d < 10) : (Nat.digitChar d).toNat - 48 = d := by
  interval_cases d <;> rfl

theorem decimalValue_natToDigitsAux :
    ∀ fuel n, n ≤ fuel → decimalValue (natToDigitsAux fuel n) = n
  | 0, 0, _ => rfl
  | 0, _ + 1, h => absurd h (by omega)
  | _ + 1, 0, _ => rfl
  | fuel + 1, n + 1, h => by
    have ih := decimalValue_natToDigitsAux fuel ((n + 1) / 10)
      (by
        have hdiv : (n + 1) / 10 < n + 1 := Nat.div_lt_self (by omega) (by omega)
        omega)
    simp only [natToDigitsAux]
    rw [decimalValue_append_digit, ih, digitChar_toNat_sub _ (Nat.mod_lt _ (by omega))]
    omega

theorem decimalValue_natToString (n : Nat) : decimalValue ((natToString n).data) = n := by
  by_cases hn : n = 0
  · subst hn; rfl
  · have he : natToString n = (natToDigitsAux (n + 1) n).asString := by
      rw [natToString, if_neg hn]
    rw [he]
    exact decimalValue_natToDigitsAux (n + 1) n (by omega)

theorem placeholderUrl_seed_inj (p q : String) (pp qq : Nat)
    (h : placeholderUrl p pp = placeholderUrl q qq) :
    placeholderSeed p pp = placeholderSeed q qq := by
  have hd := congrArg String.data h
  rw [placeholderUrl, placeholderUrl, String.data_append, String.data_append,
    String.data_append, String.data_append] at hd
  have h1 := List.append_cancel_left (List.append_cancel_right hd)
  have h2 := congrArg decimalValue h1
  rw [decimalValue_natToString, decimalValue_natToString] at h2
  exact h2

/-- C5 counterexample: two different imagePrompts with equal character
code sums collide at the same position, so changing the imagePrompt does
not always change the placeholder reference. -/
theorem placeholder_collision_counterexample :
    placeholderUrl "ab" 1 = placeholderUrl "ba" 1 ∧ ("ab" : String) ≠ "ba" :=
  ⟨rfl, by decide⟩

/-- C5 amended: the placeholder reference is a pure function of the seed,
the character code sum of the imagePrompt plus the 1-based position; two
references coincide exactly when the seeds coincide, so identical
(imagePrompt, position) pairs yield the identical reference, changing the
position alone always changes the reference, and changing the imagePrompt
changes the reference exactly when the character code sums differ (the
sum can collide across distinct prompts). -/
theorem placeholder_seed_spec (p q : String) (pp qq : Nat) :
    placeholderSeed p pp = charCodeSum p + pp ∧
    (placeholderUrl p pp = placeholderUrl q qq ↔ placeholderSeed p pp = placeholderSeed q qq) ∧
    (p = q → pp ≠ qq → placeholderUrl p pp ≠ placeholderUrl q qq) := by
  refine ⟨rfl, ⟨placeholderUrl_seed_inj p q pp qq, ?_⟩, ?_⟩
  · intro hs
    rw [placeholderUrl, placeholderUrl, hs]
  · intro hpq hne h
    have := placeholderUrl_seed_inj p q pp qq h
    rw [placeholderSeed, placeholderSeed, hpq] at this
    omega

/-- Witness for C5 amended: with the same prompt at positions 1 and 2 the
references differ. -/
theorem placeholder_seed_spec_witness :
    placeholderUrl "a" 1 ≠ placeholderUrl "a" 2 :=
  (placeholder_seed_spec "a" "a" 1 2).2.2 rfl (by decide)

/-- C6 counterexample: with an empty idea and the upstream text 42, the
client succeeds and returns a JSON number, although the idea is empty and
the value is far from the required script shape, so neither of those
claimed failure conditions is checked by the code. -/
theorem generateMovieScript_counterexample :
    generateMovieScript "" (ScriptResponse.ok (some "42")) = Except.ok (Json.num 42) ∧
    specRequiredShape (Json.num 42) = false :=
  ⟨rfl, rfl⟩

/-- C6 amended: the script client fails with the GenerationError message
exactly when the upstream call errors or the response text is absent,
empty, or not parseable as JSON; the idea is never validated (the result
does not depend on it at all), and a successfully parsed response is
returned as the script without any validation of its shape. -/
theorem generateMovieScript_spec (idea idea2 : String) (response : ScriptResponse) :
    generateMovieScript idea response = generateMovieScript idea2 response ∧
    (∀ e, generateMovieScript idea response = Except.error e → e = scriptErrorMsg) ∧
    ((∃ j, generateMovieScript idea response = Except.ok j) ↔
      ∃ txt, response = ScriptResponse.ok (some txt) ∧ txt ≠ "" ∧ (jsonParse txt).isSome) ∧
    ∀ txt j, response = ScriptResponse.ok (some txt) → txt ≠ "" → jsonParse txt = some j →
      generateMovieScript idea response = Except.ok j := by
  refine ⟨rfl, ?_, ?_, ?_⟩
  · intro e he
    cases response with
    | callError => cases he; rfl
    | ok t =>
      cases t with
      | none => cases he; rfl
      | some txt =>
        rw [generateMovieScript] at he
        by_cases ht : txt = ""
        · rw [if_pos ht] at he; cases he; rfl
        · rw [if_neg ht] at he
          cases hp : jsonParse txt with
          | none => rw [hp] at he; cases he; rfl
          | some j => rw [hp] at he; cases he
  · constructor
    · intro hj
      rcases hj with ⟨j, hj⟩
      cases response with
      | callError => cases hj
      | ok t =>
        cases t with
        | none => cases hj
        | some txt =>
          refine ⟨txt, rfl, ?_, ?_⟩
          · intro ht
            rw [generateMovieScript, if_pos ht] at hj
            cases hj
          · rw [generateMovieScript] at hj
            by_cases ht : txt = ""
            · rw [if_pos ht] at hj; cases hj
            · rw [if_neg ht] at hj
              cases hp : jsonParse txt with
              | none => rw [hp] at hj; cases hj
              | some j2 => rfl
    · intro hx
      rcases hx with ⟨txt, hr, ht, hp⟩
      subst hr
      rw [generateMovieScript, if_neg ht]
      cases hp2 : jsonParse txt with
      | none => rw [hp2] at hp; cases hp
      | some j => exact ⟨j, rfl⟩
  · intro txt j hr ht hp
    subst hr
    rw [generateMovieScript, if_neg ht, hp]

/-- Witness for C6 amended at a concrete parseable response. -/
theorem generateMovieScript_spec_witness :
    generateMovieScript "idea" (ScriptResponse.ok (some "[3]"))
      = Except.ok (Json.arr [Json.num 3]) :=
  (generateMovieScript_spec "idea" "other" (ScriptResponse.ok (some "[3]"))).2.2.2
    "[3]" (Json.arr [Json.num 3]) rfl (by decide) rfl

theorem firstInlineData_eq_none (parts : List ImagePart) :
    firstInlineData parts = none ↔ ∀ p ∈ parts, p.inlineData = none := by
  induction parts with
  | nil => simp [firstInlineData]
  | cons p rest ih =>
    cases hp : p.inlineData with
    | none => simp [firstInlineData, hp, ih]
    | some d => simp [firstInlineData, hp]

theorem firstInlineData_append_hit (pre : List ImagePart) (p : ImagePart)
    (post : List ImagePart) (d : String)
    (hpre : ∀ q ∈ pre, q.inlineData = none) (hp : p.inlineData = some d) :
    firstInlineData (pre ++ p :: post) = some d := by
  induction pre with
  | nil => simp [firstInlineData, hp]
  | cons q rest ih =>
    have hq : q.inlineData = none := hpre q (by simp)
    simp only [List.cons_append, firstInlineData, hq]
    exact ih fun r hr => hpre r (by simp [hr])

/-- C7: the image client fails with the ImageGenerationError message
exactly when the upstream call errors or no part returned with the first
candidate carries inline image data; on success it returns the payload of
the first image part, ignoring any non-image parts around it. -/
theorem generateImage_spec (call : ImageCall) :
    ((∃ e, generateImage call = Except.error e) ↔
      call = ImageCall.callError ∨
        ∃ r, call = ImageCall.ok r ∧ ∀ p ∈ returnedParts r, p.inlineData = none) ∧
    (∀ e, generateImage call = Except.error e → e = imageErrorMsg) ∧
    ∀ r pre p post d, call = ImageCall.ok r → returnedParts r = pre ++ p :: post →
      (∀ q ∈ pre, q.inlineData = none) → p.inlineData = some d →
      generateImage call = Except.ok d := by
  refine ⟨?_, ?_, ?_⟩
  · constructor
    · intro he
      rcases he with ⟨e, he⟩
      cases call with
      | callError => exact Or.inl rfl
      | ok r =>
        obtain ⟨cands⟩ := r
        refine Or.inr ⟨⟨cands⟩, rfl, ?_⟩
        cases cands with
        | nil => intro p hp; cases hp
        | cons c cs =>
          revert he
          show (match firstInlineData c.content.parts with
            | some d => Except.ok d
            | none => Except.error imageErrorMsg) = Except.error e →
            ∀ p ∈ c.content.parts, p.inlineData = none
          cases hf : firstInlineData c.content.parts with
          | none => exact fun _ => (firstInlineData_eq_none c.content.parts).mp hf
          | some d => intro he; cases he
    · intro hor
      cases hor with
      | inl h => subst h; exact ⟨imageErrorMsg, rfl⟩
      | inr h =>
        rcases h with ⟨r, hr, hall⟩
        subst hr
        obtain ⟨cands⟩ := r
        cases cands with
        | nil => exact ⟨imageErrorMsg, rfl⟩
        | cons c cs =>
          have hf : firstInlineData c.content.parts = none :=
            (firstInlineData_eq_none c.content.parts).mpr fun p hp => hall p hp
          refine ⟨imageErrorMsg, ?_⟩
          show (match firstInlineData c.content.parts with
            | some d => Except.ok d
            | none => Except.error imageErrorMsg) = Except.error imageErrorMsg
          rw [hf]
  · intro e he
    cases call with
    | callError => cases he; rfl
    | ok r =>
      obtain ⟨cands⟩ := r
      cases cands with
      | nil => cases he; rfl
      | cons c cs =>
        revert he
        show (match firstInlineData c.content.parts with
          | some d => Except.ok d
          | none => Except.error imageErrorMsg) = Except.error e → e = imageErrorMsg
        cases firstInlineData c.content.parts with
        | none => intro he; cases he; rfl
        | some d => intro he; cases he
  · intro r pre p post d hcall hparts hpre hp
    subst hcall
    obtain ⟨cands⟩ := r
    cases cands with
    | nil =>
      have hnil : ([] : List ImagePart) = pre ++ p :: post := hparts
      cases pre <;> cases hnil
    | cons c cs =>
      have hcp : c.content.parts = pre ++ p :: post := hparts
      show (match firstInlineData c.content.parts with
        | some d2 => Except.ok d2
        | none => Except.error imageErrorMsg) = Except.ok d
      rw [hcp, firstInlineData_append_hit pre p post d hpre hp]

/-- Witness for C7: a response whose first candidate has a text part before
the image part yields the image payload. -/
theorem generateImage_spec_witness :
    generateImage (ImageCall.ok ⟨[⟨⟨[⟨some "caption", none⟩, ⟨none, some "IMG"⟩]⟩⟩]⟩)
      = Except.ok "IMG" := by
  refine (generateImage_spec _).2.2 ⟨[⟨⟨[⟨some "caption", none⟩, ⟨none, some "IMG"⟩]⟩⟩]⟩
    [⟨some "caption", none⟩] ⟨none, some "IMG"⟩ [] "IMG" rfl rfl ?_ rfl
  intro q hq
  have : q = ⟨some "caption", none⟩ := by
    cases hq with
    | head => rfl
    | tail _ h => cases h
  rw [this]

theorem assignIds_spec (ids : Nat → String) :
    ∀ (i : Nat) (l : List Scene),
      (assignIds ids i l).length = l.length ∧
      (assignIds ids i l).map Scene.title = l.map Scene.title ∧
      (assignIds ids i l).map Scene.description = l.map Scene.description ∧
      (assignIds ids i l).map Scene.dialogue = l.map Scene.dialogue ∧
      (assignIds ids i l).map Scene.imagePrompt = l.map Scene.imagePrompt ∧
      ((assignIds ids i l).map Scene.id).all Option.isSome = true
  | _, [] => by refine ⟨rfl, rfl, rfl, rfl, rfl, rfl⟩
  | i, s :: rest => by
    have ih := assignIds_spec ids (i + 1) rest
    refine ⟨?_, ?_, ?_, ?_, ?_, ?_⟩ <;>
      simp only [assignIds, List.length_cons, List.map_cons, List.all_cons, ih.1, ih.2.1,
        ih.2.2.1, ih.2.2.2.1, ih.2.2.2.2.1, ih.2.2.2.2.2, Option.isSome_some, Bool.true_and]

/-- C8: generate validates the trimmed idea: on empty it sets the inline
error and aborts without calling the Script Client and without touching
loading or the script; otherwise the client is called with loading set and
the previous error and script cleared, and afterwards loading is cleared
in every case, with the id-tagged script (every scene given an identifier,
all text fields preserved) stored on success, and the page-level failure
message set with the script remaining cleared on failure. -/
theorem handleGenerateScript_spec (st : AppState) (ids : Nat → String) (outcome : ScriptOutcome) :
    ((handleGenerateScript st ids outcome).2 = true ↔ jsTrim st.idea ≠ "") ∧
    (if jsTrim st.idea = "" then
      handleGenerateScript st ids outcome = ({ st with error := some ideaErrorMsg }, false)
    else
      (handleGenerateScript st ids outcome).1.isLoading = false ∧
      (handleGenerateScript st ids outcome).1.idea = st.idea ∧
      match outcome with
      | ScriptOutcome.success script =>
        (handleGenerateScript st ids outcome).1.error = none ∧
        ∃ sc : MovieScript,
          (handleGenerateScript st ids outcome).1.movieScript = some sc ∧
          sc.title = script.title ∧ sc.genre = script.genre ∧
          sc.scenes.length = script.scenes.length ∧
          sc.scenes.map Scene.title = script.scenes.map Scene.title ∧
          sc.scenes.map Scene.description = script.scenes.map Scene.description ∧
          sc.scenes.map Scene.dialogue = script.scenes.map Scene.dialogue ∧
          sc.scenes.map Scene.imagePrompt = script.scenes.map Scene.imagePrompt ∧
          (sc.scenes.map Scene.id).all Option.isSome = true
      | ScriptOutcome.failure =>
        (handleGenerateScript st ids outcome).1.error = some generateFailMsg ∧
        (handleGenerateScript st ids outcome).1.movieScript = none) := by
  by_cases hid : jsTrim st.idea = ""
  · rw [if_pos hid]
    refine ⟨?_, by rw [handleGenerateScript, if_pos hid]⟩
    rw [handleGenerateScript, if_pos hid]
    simp [hid]
  · rw [if_neg hid]
    refine ⟨by rw [handleGenerateScript, if_neg hid]; cases outcome <;> simp [hid], ?_⟩
    rw [handleGenerateScript, if_neg hid]
    cases outcome with
    | success script =>
      have ha := assignIds_spec ids 0 script.scenes
      exact ⟨rfl, rfl, rfl,
        ⟨{ script with scenes := assignIds ids 0 script.scenes }, rfl, rfl, rfl,
          ha.1, ha.2.1, ha.2.2.1, ha.2.2.2.1, ha.2.2.2.2.1, ha.2.2.2.2.2⟩⟩
    | failure => exact ⟨rfl, rfl, rfl, rfl⟩

/-- Witness for C8 at a concrete nonempty idea and a failing call. -/
theorem handleGenerateScript_spec_witness :
    (handleGenerateScript ⟨"hi", none, false, none⟩ (fun _ => "u") ScriptOutcome.failure).1.isLoading
        = false ∧
    (handleGenerateScript ⟨"hi", none, false, none⟩ (fun _ => "u") ScriptOutcome.failure).1.error
        = some generateFailMsg ∧
    (handleGenerateScript ⟨"hi", none, false, none⟩ (fun _ => "u") ScriptOutcome.failure).1.movieScript
        = none := by
  have h2 := (handleGenerateScript_spec ⟨"hi", none, false, none⟩ (fun _ => "u")
    ScriptOutcome.failure).2
  rw [if_neg (by decide)] at h2
  exact ⟨h2.1, h2.2.2.1, h2.2.2.2⟩

end MovieGen
